import Mathlib

/-!
Verification development for the training/evaluation driver in
lib/model.py of the graph-rcnn.pytorch repository (class
SceneGraphGeneration with methods train, test,
accumulate_predictions_from_multiple_gpus, visualize_detection, and the
build_model factory).

Python dicts are modelled as lists of key/value bindings in insertion
order, where lookup returns the most recent binding, matching dict
overwrite semantics; dict.update concatenates the new bindings on the
right.  Fallible code returns Except, file-system effects are recorded
as an explicit trace, and the external collaborators (scene parser,
data loader, distributed gather, evaluation) are opaque parameters, as
the specification treats them.
-/

namespace GraphRCNN

/-- A raised Python exception relevant to this file. -/
inductive PyErr where
  | indexError
deriving DecidableEq, Repr

/-- Dict lookup in the binding-list model: the most recent (rightmost)
binding for the key wins, which is exactly the overwrite behaviour of
Python dict update. -/
def dictFind {κ V : Type} [DecidableEq κ] : List (κ × V) → κ → Option V
  | [], _ => none
  | (k1, v) :: rest, k =>
    match dictFind rest k with
    | some v1 => some v1
    | none => if k1 = k then some v else none

/-- d.update(p): the bindings of p are appended and therefore override
the bindings of d at common keys. -/
def dictUpdate {κ V : Type} (d p : List (κ × V)) : List (κ × V) := d ++ p

/-- The distinct keys of a dict in the binding-list model. -/
def dictKeys {κ V : Type} [DecidableEq κ] (d : List (κ × V)) : List κ :=
  (d.map Prod.fst).dedup

/-- Lines 107-109 of model.py: predictions starts empty and each
gathered per-process dict is merged in with predictions.update(p). -/
def mergePredictions {κ V : Type} (all_predictions : List (List (κ × V))) : List (κ × V) :=
  all_predictions.foldl dictUpdate []

/-- What the accumulation step hands back on the main process: whether
the non-contiguity warning was logged, and the prediction list that is
returned. -/
structure AccumResult (V : Type) where
  warned : Bool
  preds : List V
deriving DecidableEq, Repr

/-- Lines 102-121 of model.py, SceneGraphGeneration.
The argument all_predictions is the result of the external primitive
all_gather applied to the dict of this process, and is_main is the
result of is_main_process().  On a non-main process the function
returns None right after the gather.  On the main process it merges
the gathered dicts, sorts the keys, reads the last sorted key (an
IndexError when there are no keys), logs a warning when the number of
keys differs from last key + 1, and returns the values listed in
increasing key order. -/
def accumulate_predictions_from_multiple_gpus {V : Type}
    (all_predictions : List (List (Nat × V))) (is_main : Bool) :
    Except PyErr (Option (AccumResult V)) :=
  if !is_main then .ok none
  else
    let predictions := mergePredictions all_predictions
    let image_ids := List.insertionSort (· ≤ ·) (dictKeys predictions)
    match image_ids.getLast? with
    | none => .error .indexError
    | some last =>
      .ok (some { warned := decide (image_ids.length ≠ last + 1)
                  preds := image_ids.filterMap (dictFind predictions) })

/-- The sorted distinct key list that line 111 of model.py computes. -/
def sortedImageIds {V : Type} (predictions : List (Nat × V)) : List Nat :=
  List.insertionSort (· ≤ ·) (dictKeys predictions)

/-! ### File-system effects of test and visualize_detection -/

/-- A file-system or evaluation effect performed by test or
visualize_detection, in program order.  The save and evalCall payloads
record the predictions value handed to torch.save and to evaluate; a
Python None payload is represented by none. -/
inductive Eff (V : Type) where
  | mkdir (path : String)
  | imwrite (path : String)
  | save (path : String) (payload : Option (List V))
  | evalCall (payload : Option (List V))
deriving DecidableEq, Repr

/-- One batch of the test loop, abstracted to what lines 147-164 of
model.py consume: the image ids delivered by the data loader for the
batch and the (opaque) per-image outputs of the scene parser on it. -/
structure Batch (V : Type) where
  image_ids : List Nat
  output : List V
deriving DecidableEq, Repr

/-- The loop of visualize_detection (lines 127-133): for each
prediction, indexed in order, one JPEG is written whose name embeds the
image id at the same position; indexing img_ids out of range raises an
IndexError.  Effects preceding a raise are not tracked. -/
def imwriteEffs {V : Type} : List Nat → List V → Except PyErr (List (Eff V))
  | _, [] => .ok []
  | [], _ :: _ => .error .indexError
  | imgId :: ids, _ :: preds =>
    match imwriteEffs ids preds with
    | .error e => .error e
    | .ok rest =>
      .ok (Eff.imwrite ("visualize/detection_" ++ toString imgId ++ ".jpg") :: rest)

/-- Lines 123-133 of model.py: create the visualize folder when it
does not exist, then write one detection JPEG per prediction.  The
flag vis_exists models os.path.exists on the folder at call time; the
dataset and image tensors only influence pixel content and are
abstracted away. -/
def visualize_detection {V : Type} (vis_exists : Bool) (img_ids : List Nat)
    (predictions : List V) : Except PyErr (List (Eff V)) :=
  let dirEffs := if vis_exists then [] else [Eff.mkdir "visualize"]
  match imwriteEffs img_ids predictions with
  | .error e => .error e
  | .ok writes => .ok (dirEffs ++ writes)

/-- Lines 162-164 of model.py: results_dict.update of the dict zipping
the image ids of each batch with the parser outputs, batch by batch. -/
def resultsDict {V : Type} (batches : List (Batch V)) : List (Nat × V) :=
  batches.foldl (fun d b => dictUpdate d (b.image_ids.zip b.output)) []

/-- The per-batch part of the test loop (lines 147-164) that touches
the file system: when visualize is set, each batch calls
visualize_detection; the Boolean threads os.path.exists of the
visualize folder, which becomes true once the folder is created. -/
def testLoop {V : Type} (visualize : Bool) :
    List (Batch V) → Bool → Except PyErr (List (Eff V) × Bool)
  | [], ve => .ok ([], ve)
  | b :: rest, ve =>
    match (if visualize then visualize_detection ve b.image_ids b.output else .ok []) with
    | .error e => .error e
    | .ok effs =>
      match testLoop visualize rest (ve || visualize) with
      | .error e => .error e
      | .ok step => .ok (effs ++ step.1, step.2)

/-- Lines 135-203 of model.py: the test method.  The external
primitive all_gather is the opaque parameter gather, is_main models
is_main_process(), vis_exists and results_exists model os.path.exists
on the two output folders, and batches abstracts the test data loader
together with the scene parser outputs.  The first component of a
normal result is the effect trace; the second is the returned value:
none on a non-main process (Python None), and on the main process the
result of evaluate, abstracted by the predictions value handed to it. -/
def test {V : Type} (gather : List (Nat × V) → List (List (Nat × V)))
    (is_main visualize vis_exists results_exists : Bool) (batches : List (Batch V)) :
    Except PyErr (List (Eff V) × Option (Option (List V))) :=
  match testLoop visualize batches vis_exists with
  | .error e => .error e
  | .ok loop =>
    match accumulate_predictions_from_multiple_gpus (gather (resultsDict batches)) is_main with
    | .error e => .error e
    | .ok acc =>
      if !is_main then .ok (loop.1, none)
      else
        let predictions := acc.map AccumResult.preds
        let dirEffs := if results_exists then [] else [Eff.mkdir "results"]
        .ok (loop.1 ++ dirEffs ++
              [Eff.save "results/predictions.pth" predictions, Eff.evalCall predictions],
            some predictions)

/-- Classifier for the effects that the test loop itself can emit:
creating the visualize folder and writing detection JPEGs. -/
def visOnly {V : Type} : Eff V → Bool
  | .mkdir p => p == "visualize"
  | .imwrite _ => true
  | .save _ _ => false
  | .evalCall _ => false

/-! ### The training loop -/

/-- A checkpoint name passed to sp_checkpointer.save: periodic i
renders as the string checkpoint_ followed by i zero-padded to seven
digits (line 98), and final renders as checkpoint_final (line 100). -/
inductive SaveName where
  | periodic (i : Nat)
  | final
deriving DecidableEq, Repr

/-- What one iteration of the training loop (lines 52-100) produces:
its loop index i, the scalar handed to losses.backward(), the value
logged to the meters under the loss key, and the checkpoints saved at
the end of the iteration, in order. -/
structure IterResult where
  i : Nat
  backprop : Int
  loggedLoss : Int
  saves : List SaveName
deriving DecidableEq, Repr

/-- One iteration of the training loop.  loss_dict is the dict
returned by the scene parser for this iteration (line 58), with opaque
tensor values abstracted as integers.  Line 59 sums its values for the
backward pass; lines 62-64 recompute the same sum (loss_dict_reduced
is loss_dict in the single-process code) and log it as loss; lines
97-100 save a periodic checkpoint when i + 1 is a multiple of
cfg.SOLVER.CHECKPOINT_PERIOD and the final checkpoint when i + 1
equals max_iter. -/
def trainIter (checkpoint_period max_iter i : Nat)
    (loss_dict : List (String × Int)) : IterResult :=
  let losses := (loss_dict.map Prod.snd).sum
  let loss_dict_reduced := loss_dict
  let losses_reduced := (loss_dict_reduced.map Prod.snd).sum
  { i := i
    backprop := losses
    loggedLoss := losses_reduced
    saves :=
      (if (i + 1) % checkpoint_period = 0 then [SaveName.periodic i] else []) ++
      (if i + 1 = max_iter then [SaveName.final] else []) }

/-- Lines 40-100 of model.py, the train method.
Modelled from the spec: build_data_loader is not part of this file and
the spec treats data loading as an opaque external collaborator, so
the training data loader is modelled as the finite sequence of batches
it yields, each batch abstracted by the loss dict the scene parser
returns for it, with len of the loader equal to the number of batches.
The loader is built in the constructor from cfg alone, before the
resume iteration is read from the checkpoint, so it cannot depend on
start_iter.  The loop enumerates the loader with indices starting at
start_iter = arguments at key iteration (line 52), and max_iter is len
of the loader (line 48). -/
def train (checkpoint_period start_iter : Nat)
    (loader : List (List (String × Int))) : List IterResult :=
  (List.enumFrom start_iter loader).map
    (fun p => trainIter checkpoint_period loader.length p.1 p.2)

/-! ### The constructor and the arguments dict -/

/-- A heap of Python dict objects with String keys, indexed by
reference; needed to express that the constructor copies rather than
aliases the arguments dict of the caller. -/
structure Store (V : Type) where
  dicts : List (List (String × V))
deriving DecidableEq, Repr

/-- Dereference a dict object. -/
def readRef {V : Type} (s : Store V) (r : Nat) : List (String × V) :=
  s.dicts.getD r []

/-- arguments.copy(): allocate a fresh dict object holding the same
bindings and return its reference. -/
def copyRef {V : Type} (s : Store V) (r : Nat) : Store V × Nat :=
  (⟨s.dicts ++ [readRef s r]⟩, s.dicts.length)

/-- d.update(p) performed in place on the dict object named by r. -/
def updateRef {V : Type} (s : Store V) (r : Nat) (p : List (String × V)) : Store V :=
  ⟨s.dicts.set r (dictUpdate (readRef s r) p)⟩

/-- Lines 21-38 of model.py, the part of the constructor that touches
the arguments dict: self.arguments = arguments.copy() followed by
self.arguments.update(self.extra_checkpoint_data).  The result is the
heap after construction together with the reference held in
self.arguments. -/
def SceneGraphGeneration_init {V : Type} (s : Store V) (arguments : Nat)
    (extra_checkpoint_data : List (String × V)) : Store V × Nat :=
  let c := copyRef s arguments
  (updateRef c.1 c.2 extra_checkpoint_data, c.2)

/-- Lines 205-206 of model.py: build_model delegates to the
constructor. -/
def build_model {V : Type} (s : Store V) (arguments : Nat)
    (extra_checkpoint_data : List (String × V)) : Store V × Nat :=
  SceneGraphGeneration_init s arguments extra_checkpoint_data

/-! ### Basic lemmas about the dict model -/

theorem dictFind_append {κ V : Type} [DecidableEq κ] (a b : List (κ × V)) (k : κ) :
    dictFind (a ++ b) k =
      match dictFind b k with
      | some v => some v
      | none => dictFind a k := by
  induction a with
  | nil =>
    simp only [List.nil_append]
    cases dictFind b k <;> rfl
  | cons p rest ih =>
    obtain ⟨k1, v⟩ := p
    rw [List.cons_append, dictFind, ih, dictFind]
    cases dictFind b k <;> cases dictFind rest k <;> rfl

theorem mergePredictions_eq_flatten {κ V : Type} (ps : List (List (κ × V))) :
    mergePredictions ps = ps.flatten := by
  have aux : ∀ (ps : List (List (κ × V))) (acc : List (κ × V)),
      ps.foldl dictUpdate acc = acc ++ ps.flatten := by
    intro ps
    induction ps with
    | nil => intro acc; simp [List.flatten]
    | cons d rest ih =>
      intro acc
      simp [List.foldl_cons, ih, dictUpdate, List.flatten, List.append_assoc]
  simpa [mergePredictions] using aux ps []

theorem dictFind_isSome_iff_mem_keys {κ V : Type} [DecidableEq κ]
    (d : List (κ × V)) (k : κ) :
    (dictFind d k).isSome ↔ k ∈ d.map Prod.fst := by
  induction d with
  | nil => simp [dictFind]
  | cons p rest ih =>
    obtain ⟨k1, v⟩ := p
    simp only [dictFind, List.map_cons, List.mem_cons]
    cases h : dictFind rest k with
    | some v1 =>
      simp only [Option.isSome_some, true_iff]
      right
      rw [← ih, h]
      rfl
    | none =>
      rw [h] at ih
      simp only [Option.isSome_none, Bool.false_eq_true, false_iff] at ih
      constructor
      · intro hs
        by_cases hk : k1 = k
        · left; exact hk.symm
        · simp [hk] at hs
      · intro hmem
        rcases hmem with hk | hk
        · simp [hk]
        · exact absurd hk ih

theorem mem_dictKeys_iff {κ V : Type} [DecidableEq κ] (d : List (κ × V)) (k : κ) :
    k ∈ dictKeys d ↔ (dictFind d k).isSome := by
  rw [dictKeys, List.mem_dedup, dictFind_isSome_iff_mem_keys]

/-! ### Sorted natural-number lists and contiguity -/

theorem sorted_lt_of_sorted_le_nodup {l : List Nat}
    (hs : l.Sorted (· ≤ ·)) (hn : l.Nodup) : l.Sorted (· < ·) :=
  (List.Pairwise.and hs hn).imp (fun hab => lt_of_le_of_ne hab.1 hab.2)

theorem mem_le_getLast {l : List Nat} (hs : l.Sorted (· < ·)) (hne : l ≠ []) :
    ∀ x ∈ l, x ≤ l.getLast hne := by
  induction l with
  | nil => exact absurd rfl hne
  | cons a t ih =>
    intro x hx
    cases t with
    | nil =>
      rcases List.mem_singleton.mp hx with rfl
      rfl
    | cons b t2 =>
      have htne : b :: t2 ≠ [] := by simp
      rw [List.getLast_cons htne]
      have hst : (b :: t2).Sorted (· < ·) := hs.of_cons
      rcases List.mem_cons.mp hx with rfl | hx2
      · have hab : x < b := (List.sorted_cons.mp hs).1 b (List.mem_cons_self b t2)
        exact le_trans (le_of_lt hab) (ih hst htne b (List.mem_cons_self b t2))
      · exact ih hst htne x hx2

/-- A strictly sorted list of naturals has length equal to its last
element plus one exactly when its members are precisely the naturals
below its length. -/
theorem sorted_nodup_contiguous {l : List Nat}
    (hs : l.Sorted (· < ·)) (hne : l ≠ []) :
    l.length = l.getLast hne + 1 ↔ ∀ k, k ∈ l ↔ k < l.length := by
  have hnodup : l.Nodup := hs.nodup
  constructor
  · intro hlen
    have hupper : ∀ x ∈ l, x < l.length := by
      intro x hx
      have := mem_le_getLast hs hne x hx
      omega
    have hsub : l.toFinset ⊆ Finset.range l.length := by
      intro x hx
      exact Finset.mem_range.mpr (hupper x (List.mem_toFinset.mp hx))
    have hcard : (Finset.range l.length).card ≤ l.toFinset.card := by
      rw [Finset.card_range, List.toFinset_card_of_nodup hnodup]
    have heq : l.toFinset = Finset.range l.length :=
      Finset.eq_of_subset_of_card_le hsub hcard
    intro k
    constructor
    · exact hupper k
    · intro hk
      have : k ∈ Finset.range l.length := Finset.mem_range.mpr hk
      rw [← heq] at this
      exact List.mem_toFinset.mp this
  · intro hmem
    have hpos : 0 < l.length := List.length_pos.mpr hne
    have h1 : l.getLast hne < l.length :=
      (hmem (l.getLast hne)).mp (List.getLast_mem hne)
    have h2 : l.length - 1 ≤ l.getLast hne := by
      have : l.length - 1 ∈ l := (hmem (l.length - 1)).mpr (by omega)
      exact mem_le_getLast hs hne _ this
    omega

/-! ### The accumulate step on the main process -/

theorem sortedImageIds_perm {V : Type} (predictions : List (Nat × V)) :
    (sortedImageIds predictions).Perm (dictKeys predictions) :=
  List.perm_insertionSort (· ≤ ·) (dictKeys predictions)

theorem sortedImageIds_sorted_lt {V : Type} (predictions : List (Nat × V)) :
    (sortedImageIds predictions).Sorted (· < ·) := by
  refine sorted_lt_of_sorted_le_nodup (List.sorted_insertionSort (· ≤ ·) _) ?_
  exact ((sortedImageIds_perm predictions).symm).nodup (List.nodup_dedup _)

theorem sortedImageIds_ne_nil {V : Type} {predictions : List (Nat × V)}
    (h : predictions ≠ []) : sortedImageIds predictions ≠ [] := by
  intro hcon
  have hperm := sortedImageIds_perm predictions
  rw [hcon] at hperm
  have hkeys : dictKeys predictions = [] := hperm.symm.eq_nil
  cases predictions with
  | nil => exact h rfl
  | cons p rest =>
    have hp : p.1 ∈ dictKeys (p :: rest) := by simp [dictKeys]
    rw [hkeys] at hp
    simp at hp

theorem length_filterMap_of_isSome {α β : Type} (f : α → Option β) :
    ∀ (l : List α), (∀ x ∈ l, (f x).isSome) → (l.filterMap f).length = l.length := by
  intro l
  induction l with
  | nil => intro _; rfl
  | cons a t ih =>
    intro h
    have ha := h a (List.mem_cons_self a t)
    cases hfa : f a with
    | none => rw [hfa] at ha; simp at ha
    | some b =>
      rw [List.filterMap_cons, hfa, List.length_cons,
        ih (fun x hx => h x (List.mem_cons_of_mem a hx))]
      rfl

/-- On the main process with a non-empty merged dict, the accumulate
step returns normally with the warning flag and the key-ordered value
list. -/
theorem accumulate_main_eq {V : Type} (ps : List (List (Nat × V)))
    (h : mergePredictions ps ≠ []) :
    ∃ hne : sortedImageIds (mergePredictions ps) ≠ [],
      accumulate_predictions_from_multiple_gpus ps true =
        .ok (some
          { warned := decide ((sortedImageIds (mergePredictions ps)).length ≠
              (sortedImageIds (mergePredictions ps)).getLast hne + 1)
            preds := (sortedImageIds (mergePredictions ps)).filterMap
              (dictFind (mergePredictions ps)) }) := by
  refine ⟨sortedImageIds_ne_nil h, ?_⟩
  rw [accumulate_predictions_from_multiple_gpus]
  simp only [Bool.not_true, Bool.false_eq_true, if_false]
  rw [show List.insertionSort (· ≤ ·) (dictKeys (mergePredictions ps)) =
      sortedImageIds (mergePredictions ps) from rfl]
  rw [List.getLast?_eq_getLast _ (sortedImageIds_ne_nil h)]

/-! ### Lemmas about the test model -/

theorem testLoop_false {V : Type} (batches : List (Batch V)) (ve : Bool) :
    testLoop false batches ve = .ok ([], ve) := by
  induction batches generalizing ve with
  | nil => rfl
  | cons b rest ih =>
    rw [testLoop, if_neg (by simp), ih]
    simp

theorem imwriteEffs_visOnly {V : Type} :
    ∀ (preds : List V) (ids : List Nat) (effs : List (Eff V)),
      imwriteEffs ids preds = .ok effs → ∀ e ∈ effs, visOnly e = true := by
  intro preds
  induction preds with
  | nil =>
    intro ids effs h e he
    cases ids <;> (rw [imwriteEffs] at h; injection h with h1; rw [← h1] at he; simp at he)
  | cons p pt ih =>
    intro ids effs h e he
    cases ids with
    | nil => rw [imwriteEffs] at h; exact absurd h (by simp)
    | cons id idt =>
      rw [imwriteEffs] at h
      cases hrest : imwriteEffs idt pt with
      | error er => rw [hrest] at h; exact absurd h (by simp)
      | ok rest =>
        rw [hrest] at h
        injection h with h1
        rw [← h1] at he
        rcases List.mem_cons.mp he with rfl | he2
        · rfl
        · exact ih idt rest hrest e he2

theorem visualize_detection_visOnly {V : Type} (ve : Bool) (ids : List Nat)
    (preds : List V) (effs : List (Eff V))
    (h : visualize_detection ve ids preds = .ok effs) :
    ∀ e ∈ effs, visOnly e = true := by
  rw [visualize_detection] at h
  cases hrest : imwriteEffs ids preds with
  | error er => rw [hrest] at h; exact absurd h (by simp)
  | ok writes =>
    rw [hrest] at h
    injection h with h1
    intro e he
    rw [← h1] at he
    rcases List.mem_append.mp he with hd | hw
    · cases ve with
      | true => simp at hd
      | false =>
        simp at hd
        rw [hd]
        simp [visOnly]
    · exact imwriteEffs_visOnly preds ids writes hrest e hw

theorem testLoop_visOnly {V : Type} (visualize : Bool) :
    ∀ (batches : List (Batch V)) (ve b2 : Bool) (effs : List (Eff V)),
      testLoop visualize batches ve = .ok (effs, b2) → ∀ e ∈ effs, visOnly e = true := by
  intro batches
  induction batches with
  | nil =>
    intro ve b2 effs h e he
    rw [testLoop] at h
    injection h with h1
    rw [Prod.mk.injEq] at h1
    rw [← h1.1] at he
    simp at he
  | cons b rest ih =>
    intro ve b2 effs h e he
    rw [testLoop] at h
    cases hv : (if visualize then visualize_detection ve b.image_ids b.output
        else Except.ok []) with
    | error er => rw [hv] at h; exact absurd h (by simp)
    | ok vEffs =>
      rw [hv] at h
      cases hstep : testLoop visualize rest (ve || visualize) with
      | error er => rw [hstep] at h; exact absurd h (by simp)
      | ok step =>
        rw [hstep] at h
        injection h with h1
        rw [Prod.mk.injEq] at h1
        rw [← h1.1] at he
        rcases List.mem_append.mp he with h2 | h2
        · cases visualize with
          | false =>
            rw [if_neg (by simp)] at hv
            injection hv with hv1
            rw [← hv1] at h2
            simp at h2
          | true =>
            rw [if_pos rfl] at hv
            exact visualize_detection_visOnly ve b.image_ids b.output vEffs hv e h2
        · exact ih (ve || visualize) step.2 step.1 (by rw [hstep]) e h2

theorem imwriteEffs_eq_map {V : Type} :
    ∀ (preds : List V) (ids : List Nat), ids.length = preds.length →
      imwriteEffs ids preds =
        .ok (ids.map (fun imgId =>
          Eff.imwrite ("visualize/detection_" ++ toString imgId ++ ".jpg"))) := by
  intro preds
  induction preds with
  | nil =>
    intro ids h
    cases ids with
    | nil => rfl
    | cons id idt => simp at h
  | cons p pt ih =>
    intro ids h
    cases ids with
    | nil => simp at h
    | cons id idt =>
      rw [imwriteEffs, ih idt (by simpa using h), List.map_cons]

/-! ### Lemmas about the train model -/

theorem trainIter_i (cp mi i : Nat) (d : List (String × Int)) :
    (trainIter cp mi i d).i = i := rfl

theorem trainIter_saves_final (cp mi i : Nat) (d : List (String × Int)) :
    SaveName.final ∈ (trainIter cp mi i d).saves ↔ i + 1 = mi := by
  by_cases h1 : (i + 1) % cp = 0 <;> by_cases h2 : i + 1 = mi <;>
    simp [trainIter, h1, h2]

theorem trainIter_saves_periodic (cp mi i j : Nat) (d : List (String × Int)) :
    SaveName.periodic j ∈ (trainIter cp mi i d).saves ↔
      j = i ∧ (i + 1) % cp = 0 := by
  by_cases h1 : (i + 1) % cp = 0 <;> by_cases h2 : i + 1 = mi <;>
    simp [trainIter, h1, h2, and_comm]

theorem enumFrom_getLast? {α : Type} :
    ∀ (l : List α) (st : Nat), l ≠ [] →
      ∃ d, (List.enumFrom st l).getLast? = some (st + l.length - 1, d) := by
  intro l
  induction l with
  | nil => intro st h; exact absurd rfl h
  | cons x t ih =>
    intro st _
    cases t with
    | nil => exact ⟨x, rfl⟩
    | cons y t2 =>
      obtain ⟨d, hd⟩ := ih (st + 1) (by simp)
      refine ⟨d, ?_⟩
      have harith : st + 1 + (y :: t2).length - 1 = st + (x :: y :: t2).length - 1 := by
        simp only [List.length_cons]
        omega
      rw [show List.enumFrom st (x :: y :: t2) =
          (st, x) :: (st + 1, y) :: List.enumFrom (st + 2) t2 from rfl,
        List.getLast?_cons_cons,
        show ((st + 1, y) : Nat × α) :: List.enumFrom (st + 2) t2 =
          List.enumFrom (st + 1) (y :: t2) from rfl,
        hd, harith]

theorem getLast?_map {α β : Type} (f : α → β) :
    ∀ (l : List α), (l.map f).getLast? = l.getLast?.map f := by
  intro l
  induction l with
  | nil => rfl
  | cons x t ih =>
    cases t with
    | nil => rfl
    | cons y t2 =>
      rw [List.map_cons, List.map_cons, List.getLast?_cons_cons,
        List.getLast?_cons_cons, ← List.map_cons, ih]

/-! ### Lemmas about the store model -/

theorem readRef_init_caller {V : Type} (s : Store V) (r : Nat)
    (extra : List (String × V)) (h : r < s.dicts.length) :
    readRef (SceneGraphGeneration_init s r extra).1 r = readRef s r := by
  have hne : s.dicts.length ≠ r := by omega
  rw [SceneGraphGeneration_init]
  simp only [copyRef, updateRef, readRef]
  rw [List.getD_eq_getElem?_getD, List.getElem?_set_ne hne,
    List.getElem?_append_left h, ← List.getD_eq_getElem?_getD]

theorem readRef_init_self {V : Type} (s : Store V) (r : Nat)
    (extra : List (String × V)) :
    readRef (SceneGraphGeneration_init s r extra).1 (SceneGraphGeneration_init s r extra).2 =
      dictUpdate (readRef s r) extra := by
  rw [SceneGraphGeneration_init]
  simp only [copyRef, updateRef, readRef]
  have hset : s.dicts.length < (s.dicts ++ [s.dicts.getD r []]).length := by
    simp
  rw [List.getD_eq_getElem?_getD, List.getElem?_set_self hset]
  simp only [Option.getD_some]
  congr 1
  rw [List.getD_eq_getElem?_getD, List.getElem?_concat_length]
  rfl

/-! ### Claim C1 -/

/-- Claim C1: on the main process with a non-empty merged prediction
dict, accumulate_predictions_from_multiple_gpus raises no exception,
logs the warning exactly when the set of gathered prediction keys is
not the contiguous range of the naturals below the number of distinct
keys, and in either case still returns the merged predictions. -/
theorem accumulate_warning_iff_noncontiguous {V : Type}
    (ps : List (List (Nat × V))) (h : mergePredictions ps ≠ []) :
    ∃ r : AccumResult V,
      accumulate_predictions_from_multiple_gpus ps true = .ok (some r) ∧
      (r.warned = true ↔
        ¬ ∀ k : Nat, k ∈ dictKeys (mergePredictions ps) ↔
          k < (dictKeys (mergePredictions ps)).length) := by
  obtain ⟨hne, heq⟩ := accumulate_main_eq ps h
  refine ⟨_, heq, ?_⟩
  show decide ((sortedImageIds (mergePredictions ps)).length ≠
      (sortedImageIds (mergePredictions ps)).getLast hne + 1) = true ↔ _
  rw [decide_eq_true_eq]
  have hcont := sorted_nodup_contiguous (sortedImageIds_sorted_lt (mergePredictions ps)) hne
  have hiff : (∀ k, k ∈ sortedImageIds (mergePredictions ps) ↔
      k < (sortedImageIds (mergePredictions ps)).length) ↔
      (∀ k, k ∈ dictKeys (mergePredictions ps) ↔
        k < (dictKeys (mergePredictions ps)).length) := by
    have hperm := sortedImageIds_perm (mergePredictions ps)
    constructor
    · intro hall k
      rw [← hperm.mem_iff, hall k, hperm.length_eq]
    · intro hall k
      rw [hperm.mem_iff, hall k, ← hperm.length_eq]
  exact not_congr (hcont.trans hiff)

/-- Witness for C1 at the concrete gathered prediction dicts with keys
0 and 2, a non-contiguous key set. -/
theorem accumulate_warning_iff_noncontiguous_witness :
    mergePredictions ([[(0, 10)], [(2, 20)]] : List (List (Nat × Nat))) ≠ [] ∧
    ∃ r : AccumResult Nat,
      accumulate_predictions_from_multiple_gpus
          ([[(0, 10)], [(2, 20)]] : List (List (Nat × Nat))) true = .ok (some r) ∧
      (r.warned = true ↔
        ¬ ∀ k : Nat,
          k ∈ dictKeys (mergePredictions ([[(0, 10)], [(2, 20)]] : List (List (Nat × Nat)))) ↔
          k < (dictKeys (mergePredictions
            ([[(0, 10)], [(2, 20)]] : List (List (Nat × Nat))))).length) :=
  ⟨by decide, accumulate_warning_iff_noncontiguous _ (by decide)⟩

/-! ### Claim C4 -/

/-- Claim C4: in every training iteration, the scalar handed to
losses.backward() is the sum of the values of the loss dict returned by
the scene parser for that iteration, and the value logged to the
meters as loss is that same sum. -/
theorem loss_backprop_and_logged_are_sum (cp st : Nat)
    (loader : List (List (String × Int))) :
    ∀ p ∈ List.enumFrom st loader,
      trainIter cp loader.length p.1 p.2 ∈ train cp st loader ∧
      (trainIter cp loader.length p.1 p.2).backprop = (p.2.map Prod.snd).sum ∧
      (trainIter cp loader.length p.1 p.2).loggedLoss = (p.2.map Prod.snd).sum := by
  intro p hp
  exact ⟨List.mem_map_of_mem _ hp, rfl, rfl⟩

/-- Witness for C4 at a concrete two-entry loss dict. -/
theorem loss_backprop_and_logged_are_sum_witness :
    ((0 : Nat), [("loss_obj", (2 : Int)), ("loss_rel", 3)]) ∈
        List.enumFrom 0 [[("loss_obj", (2 : Int)), ("loss_rel", 3)]] ∧
    (trainIter 7 1 0 [("loss_obj", (2 : Int)), ("loss_rel", 3)] ∈
        train 7 0 [[("loss_obj", (2 : Int)), ("loss_rel", 3)]] ∧
      (trainIter 7 1 0 [("loss_obj", (2 : Int)), ("loss_rel", 3)]).backprop =
        ([("loss_obj", (2 : Int)), ("loss_rel", 3)].map Prod.snd).sum ∧
      (trainIter 7 1 0 [("loss_obj", (2 : Int)), ("loss_rel", 3)]).loggedLoss =
        ([("loss_obj", (2 : Int)), ("loss_rel", 3)].map Prod.snd).sum) :=
  ⟨by decide,
    loss_backprop_and_logged_are_sum 7 0 [[("loss_obj", (2 : Int)), ("loss_rel", 3)]]
      ((0 : Nat), [("loss_obj", (2 : Int)), ("loss_rel", 3)]) (by decide)⟩

/-! ### Claim C5 -/

/-- Claim C5: during train, the periodic checkpoint named after the
loop index i is saved exactly when i + 1 is a multiple of
cfg.SOLVER.CHECKPOINT_PERIOD, and a periodic checkpoint named after
any other index is never saved at iteration i. -/
theorem checkpoint_cadence (cp st : Nat) (loader : List (List (String × Int)))
    (hcp : 0 < cp) :
    ∀ r ∈ train cp st loader,
      (SaveName.periodic r.i ∈ r.saves ↔ (r.i + 1) % cp = 0) ∧
      (∀ j, SaveName.periodic j ∈ r.saves → j = r.i) := by
  have _ := hcp
  intro r hr
  rw [train] at hr
  obtain ⟨p, hp, hpr⟩ := List.mem_map.mp hr
  constructor
  · rw [← hpr, trainIter_i, trainIter_saves_periodic]
    simp
  · intro j hj
    rw [← hpr] at hj
    rw [← hpr, trainIter_i]
    exact ((trainIter_saves_periodic cp loader.length p.1 j p.2).mp hj).1

/-- Witness for C5 on a run with period 2 and two iterations, at the
iteration with index 1. -/
theorem checkpoint_cadence_witness :
    0 < 2 ∧ trainIter 2 2 1 [] ∈ train 2 0 [[], []] ∧
    ((SaveName.periodic (trainIter 2 2 1 []).i ∈ (trainIter 2 2 1 []).saves ↔
        ((trainIter 2 2 1 []).i + 1) % 2 = 0) ∧
      (∀ j, SaveName.periodic j ∈ (trainIter 2 2 1 []).saves → j = (trainIter 2 2 1 []).i)) :=
  ⟨by decide, by decide,
    checkpoint_cadence 2 0 [[], []] (by decide) (trainIter 2 2 1 []) (by decide)⟩

/-! ### Claim C8 -/

/-- Claim C8: when every gathered per-process dict is empty, the main
process path of accumulate_predictions_from_multiple_gpus raises an
IndexError from indexing the empty sorted key list instead of logging
the warning or returning an empty list. -/
theorem accumulate_empty_gather_raises {V : Type} (ps : List (List (Nat × V)))
    (h : ∀ p ∈ ps, p = []) :
    accumulate_predictions_from_multiple_gpus ps true = .error PyErr.indexError := by
  have hm : mergePredictions ps = [] := by
    rw [mergePredictions_eq_flatten]
    exact List.flatten_eq_nil_iff.mpr h
  rw [accumulate_predictions_from_multiple_gpus]
  simp only [Bool.not_true, Bool.false_eq_true, if_false, hm]
  rfl

/-- Witness for C8 at two concrete empty gathered dicts. -/
theorem accumulate_empty_gather_raises_witness :
    (∀ p ∈ ([[], []] : List (List (Nat × Nat))), p = []) ∧
    accumulate_predictions_from_multiple_gpus ([[], []] : List (List (Nat × Nat))) true =
      .error PyErr.indexError :=
  ⟨by decide, accumulate_empty_gather_raises _ (by decide)⟩

/-! ### Claim C10 -/

/-- Claim C10: when an image id occurs in more than one gathered dict,
the merge keeps the binding from the dict occurring latest in the
gathered list: if the key is present in dict d and absent from every
later dict, the merged lookup agrees with the lookup in d. -/
theorem merge_is_right_biased {V : Type} (ds1 : List (List (Nat × V)))
    (d : List (Nat × V)) (ds2 : List (List (Nat × V))) (k : Nat)
    (h1 : (dictFind d k).isSome)
    (h2 : ∀ d2 ∈ ds2, dictFind d2 k = none) :
    dictFind (mergePredictions (ds1 ++ d :: ds2)) k = dictFind d k := by
  obtain ⟨v, hv⟩ := Option.isSome_iff_exists.mp h1
  have hjoin : dictFind ds2.flatten k = none := by
    induction ds2 with
    | nil => rfl
    | cons e rest ih =>
      rw [List.flatten_cons, dictFind_append,
        ih (fun x hx => h2 x (List.mem_cons_of_mem e hx)),
        h2 e (List.mem_cons_self e rest)]
  rw [mergePredictions_eq_flatten, List.flatten_append, List.flatten_cons,
    dictFind_append, dictFind_append, hjoin, hv]

/-- Witness for C10: key 0 is bound in the first and second gathered
dicts; the merge keeps the binding of the second. -/
theorem merge_is_right_biased_witness :
    (dictFind ([(0, 2)] : List (Nat × Nat)) 0).isSome ∧
    (∀ d2 ∈ ([[(1, 3)]] : List (List (Nat × Nat))), dictFind d2 0 = none) ∧
    dictFind (mergePredictions ([[(0, 1)]] ++ [(0, 2)] :: [[(1, 3)]])) 0 =
      dictFind ([(0, 2)] : List (Nat × Nat)) 0 :=
  ⟨by decide, by decide, merge_is_right_biased [[(0, 1)]] [(0, 2)] [[(1, 3)]] 0
    (by decide) (by decide)⟩

/-! ### Claim C2 -/

/-- Counterexample to claim C2: a run of train with a two-batch loader
and start_iter = 1 enumerates loop indices 1 and 2; checkpoint_final
is saved at the step with index 1 (because 1 + 1 equals max_iter = 2),
which is the first of the two iterations, and the last iteration
(index 2) saves nothing, so the final checkpoint is not saved on the
last iteration of the training loop. -/
theorem final_checkpoint_counterexample :
    (train 5 1 [[], []]).map (fun r => (r.i, r.saves)) =
      [(1, [SaveName.final]), (2, [])] := by rfl

/-- Claim C2 amended: checkpoint_final is saved exactly at the loop
step whose index i satisfies i + 1 = max_iter, where max_iter is the
length of the training data loader; when start_iter = 0 that step is
the last iteration of the loop, so a run started from iteration 0
saves the final checkpoint at the end of training, but for a positive
start_iter the saving step, when it occurs at all, is not the last
iteration. -/
theorem final_checkpoint_saved (cp st : Nat) (loader : List (List (String × Int)))
    (h : loader ≠ []) :
    (∀ r ∈ train cp st loader, (SaveName.final ∈ r.saves ↔ r.i + 1 = loader.length)) ∧
    (st = 0 → ∃ r, (train cp st loader).getLast? = some r ∧
      SaveName.final ∈ r.saves ∧ r.i + 1 = loader.length) := by
  constructor
  · intro r hr
    rw [train] at hr
    obtain ⟨p, hp, hpr⟩ := List.mem_map.mp hr
    rw [← hpr, trainIter_i]
    exact trainIter_saves_final cp loader.length p.1 p.2
  · intro h0
    subst h0
    obtain ⟨d, hd⟩ := enumFrom_getLast? loader 0 h
    have hpos : 0 < loader.length := List.length_pos.mpr h
    refine ⟨trainIter cp loader.length (0 + loader.length - 1) d, ?_, ?_, ?_⟩
    · rw [train, getLast?_map, hd]
      rfl
    · rw [trainIter_saves_final]
      omega
    · rw [trainIter_i]
      omega

/-- Witness for the amended C2 on a fresh two-batch run. -/
theorem final_checkpoint_saved_witness :
    ([[], []] : List (List (String × Int))) ≠ [] ∧
    ((∀ r ∈ train 5 0 [[], []], (SaveName.final ∈ r.saves ↔ r.i + 1 = 2)) ∧
      ((0 : Nat) = 0 → ∃ r, (train 5 0 [[], []]).getLast? = some r ∧
        SaveName.final ∈ r.saves ∧ r.i + 1 = 2)) :=
  ⟨by decide, final_checkpoint_saved 5 0 [[], []] (by decide)⟩

/-! ### Claim C3 -/

/-- Claim C3: on the main process, test writes the file
results/predictions.pth (creating the results folder when absent)
whose payload is the list of merged predictions taken in increasing
key order, hands the same list to evaluate and returns its result, and
the length of that list is the number of distinct gathered image
ids. -/
theorem test_serializes_merged_predictions {V : Type}
    (gather : List (Nat × V) → List (List (Nat × V)))
    (ve re : Bool) (batches : List (Batch V))
    (h : mergePredictions (gather (resultsDict batches)) ≠ []) :
    ∃ L : List V,
      L = (sortedImageIds (mergePredictions (gather (resultsDict batches)))).filterMap
        (dictFind (mergePredictions (gather (resultsDict batches)))) ∧
      test gather true false ve re batches =
        .ok ((if re then [] else [Eff.mkdir "results"]) ++
            [Eff.save "results/predictions.pth" (some L), Eff.evalCall (some L)],
          some (some L)) ∧
      L.length = (dictKeys (mergePredictions (gather (resultsDict batches)))).length := by
  obtain ⟨hne, heq⟩ := accumulate_main_eq _ h
  refine ⟨_, rfl, ?_, ?_⟩
  · rw [test, testLoop_false, heq]
    simp
  · rw [length_filterMap_of_isSome]
    · exact (sortedImageIds_perm _).length_eq
    · intro x hx
      exact (mem_dictKeys_iff _ _).mp ((sortedImageIds_perm _).mem_iff.mp hx)

/-- Witness for C3 with one gathered process holding one prediction. -/
theorem test_serializes_merged_predictions_witness :
    mergePredictions ((fun d => [d]) (resultsDict [Batch.mk [0] [(42 : Nat)]])) ≠ [] ∧
    ∃ L : List Nat,
      L = (sortedImageIds (mergePredictions
            ((fun d => [d]) (resultsDict [Batch.mk [0] [42]])))).filterMap
        (dictFind (mergePredictions ((fun d => [d]) (resultsDict [Batch.mk [0] [42]])))) ∧
      test (fun d => [d]) true false false false [Batch.mk [0] [42]] =
        .ok ((if false then [] else [Eff.mkdir "results"]) ++
            [Eff.save "results/predictions.pth" (some L), Eff.evalCall (some L)],
          some (some L)) ∧
      L.length = (dictKeys (mergePredictions
        ((fun d => [d]) (resultsDict [Batch.mk [0] [42]])))).length :=
  ⟨by decide, test_serializes_merged_predictions (fun d => [d]) false false
    [Batch.mk [0] [42]] (by decide)⟩

/-! ### Claim C6 -/

theorem visOnly_not_results_write {V : Type} (e : Eff V) (h : visOnly e = true) :
    e ≠ Eff.mkdir "results" ∧ (∀ pth pl, e ≠ Eff.save pth pl) ∧
    (∀ pl, e ≠ Eff.evalCall pl) := by
  cases e with
  | mkdir p =>
    refine ⟨?_, fun pth pl => by simp, fun pl => by simp⟩
    intro hcon
    injection hcon with hp
    rw [hp] at h
    simp only [visOnly] at h
    exact absurd h (by decide)
  | imwrite p => exact ⟨by simp, fun pth pl => by simp, fun pl => by simp⟩
  | save pth pl => simp [visOnly] at h
  | evalCall pl => simp [visOnly] at h

/-- Claim C6: on a non-main process,
accumulate_predictions_from_multiple_gpus returns None right after the
gather, and test returns None having performed only the effects of its
visualization loop: it does not create the results folder, write
predictions.pth, or call evaluate. -/
theorem nonmain_no_result_writes {V : Type}
    (gather : List (Nat × V) → List (List (Nat × V)))
    (visualize ve re b2 : Bool) (batches : List (Batch V)) (effs : List (Eff V))
    (hloop : testLoop visualize batches ve = .ok (effs, b2)) :
    (∀ ps : List (List (Nat × V)),
      accumulate_predictions_from_multiple_gpus ps false = .ok none) ∧
    test gather false visualize ve re batches = .ok (effs, none) ∧
    (∀ e ∈ effs, e ≠ Eff.mkdir "results" ∧ (∀ pth pl, e ≠ Eff.save pth pl) ∧
      (∀ pl, e ≠ Eff.evalCall pl)) := by
  refine ⟨fun ps => rfl, ?_, ?_⟩
  · rw [test, hloop]
    rfl
  · intro e he
    exact visOnly_not_results_write e (testLoop_visOnly visualize batches ve b2 effs hloop e he)

/-- Witness for C6 with one batch and visualization enabled. -/
theorem nonmain_no_result_writes_witness :
    testLoop true [Batch.mk [0] [(42 : Nat)]] false =
      .ok ([Eff.mkdir "visualize", Eff.imwrite "visualize/detection_0.jpg"], true) ∧
    ((∀ ps : List (List (Nat × Nat)),
        accumulate_predictions_from_multiple_gpus ps false = .ok none) ∧
      test (fun d => [d]) false true false false [Batch.mk [0] [42]] =
        .ok ([Eff.mkdir "visualize", Eff.imwrite "visualize/detection_0.jpg"], none) ∧
      (∀ e ∈ [Eff.mkdir "visualize",
          Eff.imwrite ("visualize/detection_0.jpg" : String)],
        e ≠ Eff.mkdir "results" ∧
        (∀ pth pl, e ≠ Eff.save pth (pl : Option (List Nat))) ∧
        (∀ pl, e ≠ Eff.evalCall (pl : Option (List Nat))))) :=
  ⟨by rfl, nonmain_no_result_writes (fun d => [d]) true false false true
    [Batch.mk [0] [42]] [Eff.mkdir "visualize", Eff.imwrite "visualize/detection_0.jpg"]
    (by rfl)⟩

/-! ### Claim C7 -/

/-- Claim C7: detection JPEGs go to the visualize folder only when
test is called with visualize set: with visualize false the effect
trace of test contains no image write and no creation of the visualize
folder; and visualize_detection creates the visualize folder exactly
when it does not already exist and writes exactly one file per
prediction in the batch, named after the image id at the position of
that prediction. -/
theorem visualize_writes_iff_enabled {V : Type}
    (gather : List (Nat × V) → List (List (Nat × V)))
    (im ve re : Bool) (batches : List (Batch V))
    (effs : List (Eff V)) (ret : Option (Option (List V)))
    (ids : List Nat) (preds : List V) (vex : Bool)
    (hlen : ids.length = preds.length)
    (htest : test gather im false ve re batches = .ok (effs, ret)) :
    (∀ e ∈ effs, (∀ p, e ≠ Eff.imwrite p) ∧ e ≠ Eff.mkdir "visualize") ∧
    visualize_detection vex ids preds =
      .ok ((if vex then [] else [Eff.mkdir "visualize"]) ++
        ids.map (fun imgId =>
          Eff.imwrite ("visualize/detection_" ++ toString imgId ++ ".jpg"))) ∧
    (ids.map (fun imgId =>
      (Eff.imwrite ("visualize/detection_" ++ toString imgId ++ ".jpg") : Eff V))).length =
      preds.length := by
  refine ⟨?_, ?_, ?_⟩
  · rw [test, testLoop_false] at htest
    cases hacc : accumulate_predictions_from_multiple_gpus (gather (resultsDict batches)) im with
    | error er => rw [hacc] at htest; exact absurd htest (by simp)
    | ok acc =>
      rw [hacc] at htest
      cases im with
      | false =>
        simp only [Bool.not_false, if_true] at htest
        injection htest with h1
        rw [Prod.mk.injEq] at h1
        rw [← h1.1]
        intro e he
        simp at he
      | true =>
        simp only [Bool.not_true, Bool.false_eq_true, if_false] at htest
        injection htest with h1
        rw [Prod.mk.injEq] at h1
        rw [← h1.1]
        intro e he
        rw [List.nil_append] at he
        rcases List.mem_append.mp he with h2 | h2
        · cases re with
          | true => simp at h2
          | false =>
            rw [if_neg (by simp)] at h2
            rcases List.mem_singleton.mp h2 with rfl
            refine ⟨fun p => by simp, fun hcon => ?_⟩
            injection hcon with hs
            exact absurd hs (by decide)
        · rcases List.mem_cons.mp h2 with rfl | h3
          · exact ⟨fun p => by simp, by simp⟩
          · rcases List.mem_singleton.mp h3 with rfl
            exact ⟨fun p => by simp, by simp⟩
  · rw [visualize_detection, imwriteEffs_eq_map preds ids hlen]
  · rw [List.length_map, hlen]

/-- Witness for C7: a main-process test run with visualize disabled
and a one-prediction call of visualize_detection. -/
theorem visualize_writes_iff_enabled_witness :
    ([3] : List Nat).length = ([(99 : Nat)] : List Nat).length ∧
    test (fun d => [d]) true false false false [Batch.mk [0] [(42 : Nat)]] =
      .ok ([Eff.mkdir "results",
            Eff.save "results/predictions.pth" (some [42]),
            Eff.evalCall (some [42])], some (some [42])) ∧
    ((∀ e ∈ [Eff.mkdir "results",
          Eff.save "results/predictions.pth" (some [(42 : Nat)]),
          Eff.evalCall (some [42])],
        (∀ p, e ≠ Eff.imwrite p) ∧ e ≠ Eff.mkdir "visualize") ∧
      visualize_detection false [3] [(99 : Nat)] =
        .ok ((if false then [] else [Eff.mkdir "visualize"]) ++
          ([3] : List Nat).map (fun imgId =>
            Eff.imwrite ("visualize/detection_" ++ toString imgId ++ ".jpg"))) ∧
      (([3] : List Nat).map (fun imgId =>
        (Eff.imwrite ("visualize/detection_" ++ toString imgId ++ ".jpg") : Eff Nat))).length =
        ([(99 : Nat)] : List Nat).length) :=
  ⟨by decide, by rfl,
    visualize_writes_iff_enabled (fun d => [d]) true false false [Batch.mk [0] [42]]
      [Eff.mkdir "results", Eff.save "results/predictions.pth" (some [42]),
        Eff.evalCall (some [42])] (some (some [42])) [3] [99] false
      (by decide) (by rfl)⟩

/-! ### Claim C9 -/

/-- Claim C9: constructing SceneGraphGeneration through build_model
never mutates the arguments dict of the caller: the constructor stores
a copy and applies the checkpoint-data update only to the copy. -/
theorem init_does_not_mutate_arguments {V : Type} (s : Store V) (r : Nat)
    (extra : List (String × V)) (h : r < s.dicts.length) :
    readRef (build_model s r extra).1 r = readRef s r ∧
    readRef (build_model s r extra).1 (build_model s r extra).2 =
      dictUpdate (readRef s r) extra :=
  ⟨readRef_init_caller s r extra h, readRef_init_self s r extra⟩

/-- Witness for C9 on a one-dict heap. -/
theorem init_does_not_mutate_arguments_witness :
    0 < (Store.mk [[("iteration", (0 : Nat))]]).dicts.length ∧
    (readRef (build_model (Store.mk [[("iteration", (0 : Nat))]]) 0
        [("iteration", 5)]).1 0 =
      readRef (Store.mk [[("iteration", (0 : Nat))]]) 0 ∧
    readRef (build_model (Store.mk [[("iteration", (0 : Nat))]]) 0 [("iteration", 5)]).1
        (build_model (Store.mk [[("iteration", (0 : Nat))]]) 0 [("iteration", 5)]).2 =
      dictUpdate (readRef (Store.mk [[("iteration", (0 : Nat))]]) 0) [("iteration", 5)]) :=
  ⟨by decide, init_does_not_mutate_arguments (Store.mk [[("iteration", (0 : Nat))]]) 0
    [("iteration", 5)] (by decide)⟩

end GraphRCNN
